import Mathlib

/-!
Verification of the Business Identity Resolution & Competitive Scoring Engine
(`server/services/scoring.ts`, `server/storage.ts`).

JavaScript strings are modelled as `List Char`; JavaScript numbers that hold
ratings and similarity scores are modelled as exact rationals `ℚ` (the decimal
constants 0.6, 0.75, 0.8, 0.95, 4.0, 4.5 of the source are exact small
rationals, and review counts are integers, so exact arithmetic agrees with the
source's floating point on all quantities compared here); review counts are
modelled as `ℕ`.
-/

/-- JavaScript strings are lists of characters. -/
abbrev Str := List Char

/-- Membership of the JavaScript `\w` character class, `[A-Za-z0-9_]`. -/
def isWordChar (c : Char) : Bool :=
  (('a' ≤ c && c ≤ 'z') || ('A' ≤ c && c ≤ 'Z') || ('0' ≤ c && c ≤ '9') || c = '_')

/-- Membership of the JavaScript `\s` character class (the whitespace that
occurs in business-name strings: space, tab, newline, carriage return). -/
def isSpaceChar (c : Char) : Bool :=
  (c = ' ' || c = '\t' || c = '\n' || c = '\r')

/-- JavaScript `String.prototype.toLowerCase` (ASCII inputs). -/
def lowerStr (s : Str) : Str := s.map Char.toLower

/-- JavaScript `String.prototype.trim`: strip whitespace from both ends. -/
def trimStr (s : Str) : Str :=
  ((s.dropWhile isSpaceChar).reverse.dropWhile isSpaceChar).reverse

/-- JavaScript `.replace(/\s+/g, ' ')`: collapse every whitespace run to one
space. -/
def collapseWs : Str → Str
  | [] => []
  | [c] => if isSpaceChar c then [' '] else [c]
  | c1 :: c2 :: rest =>
    if isSpaceChar c1 && isSpaceChar c2 then collapseWs (c2 :: rest)
    else (if isSpaceChar c1 then ' ' else c1) :: collapseWs (c2 :: rest)

/-- JavaScript `.replace(/[^\w\s]/g, '')`: delete punctuation. -/
def stripPunct (s : Str) : Str :=
  s.filter (fun c => isWordChar c || isSpaceChar c)

/-- JavaScript `String.prototype.split(' ')`: split on every single space
character; adjacent separators and an empty input yield empty fields
(`"".split(' ') = [""]`). -/
def splitOnSpace : Str → List Str
  | [] => [[]]
  | c :: rest =>
    if c = ' ' then [] :: splitOnSpace rest
    else
      match splitOnSpace rest with
      | [] => [[c]]
      | h :: t => (c :: h) :: t

/-- JavaScript `Array.prototype.join(' ')`. -/
def joinSpace (ws : List Str) : Str := List.intercalate [' '] ws

/-- JavaScript `searchQuery.split(',')[0]`: the segment before the first
comma. -/
def beforeComma (s : Str) : Str := s.takeWhile (fun c => c ≠ ',')

/-- JavaScript `hay.includes(needle)`: substring containment. -/
def strIncludes (hay needle : Str) : Bool :=
  hay.tails.any (fun t => needle.isPrefixOf t)

/-- The alternation of the suffix-stripping regex of `cleanBusinessName`,
`/\b(restaurant|cafe|bistro|diner|grill|bar|pub|llc|inc|corp|ltd|co\.?)\b/g`,
in source order.  Every member ends in a word character, so the trailing
`\b` requires the rest of the string to be empty or start with a non-word
character; the optional-dot branch `co\.` is handled separately by
`tryStripWord` because its trailing `\b` sits after the non-word `.` and
therefore requires a following word character. -/
def suffixWordList : List Str :=
  ["restaurant", "cafe", "bistro", "diner", "grill", "bar", "pub",
   "llc", "inc", "corp", "ltd"].map String.toList

/-- Boundary test after a match ending in a word character: end of string or a
non-word character next. -/
def endsWordBoundary : Str → Bool
  | [] => true
  | c :: _ => !isWordChar c

/-- Try to match one alternative of the suffix regex at the head of `s`
(which is known to sit at a word boundary).  Returns the wordness of the last
matched character together with the rest of the string, mirroring how the
regex engine resumes scanning after a global-flag match.  The alternatives
are tried in the regex's order, with the greedy `co\.?` trying `co.` before
`co`. -/
def tryStripWord (s : Str) : Option (Bool × Str) :=
  match suffixWordList.find? (fun w => w.isPrefixOf s && endsWordBoundary (s.drop w.length)) with
  | some w => some (true, s.drop w.length)
  | none =>
    if ("co.".toList.isPrefixOf s) &&
        (match s.drop 3 with | c :: _ => isWordChar c | [] => false) then
      some (false, s.drop 3)
    else if ("co".toList.isPrefixOf s) && endsWordBoundary (s.drop 2) then
      some (true, s.drop 2)
    else none

/-- Left-to-right scan of the global suffix-stripping regex: `prevW` records
whether the previous character of the original string was a word character
(for the leading `\b`), and the fuel argument (always at least the string
length) makes the recursion structural.  A successful match deletes the
matched text. -/
def stripScan : Nat → Bool → Str → Str
  | 0, _, s => s
  | _ + 1, _, [] => []
  | fuel + 1, prevW, c :: rest =>
    if prevW then c :: stripScan fuel (isWordChar c) rest
    else
      match tryStripWord (c :: rest) with
      | some (lastW, rem) => stripScan fuel lastW rem
      | none => c :: stripScan fuel (isWordChar c) rest

/-- JavaScript `.replace(/\b(restaurant|cafe|bistro|diner|grill|bar|pub|llc|inc|corp|ltd|co\.?)\b/g, '')`. -/
def stripSuffixWords (s : Str) : Str := stripScan s.length false s

/-- `GooglePlacesService.cleanBusinessName`: lower-case, strip the common
business suffix words, delete punctuation, collapse whitespace, trim. -/
def cleanBusinessName (name : Str) : Str :=
  trimStr (collapseWs (stripPunct (stripSuffixWords (lowerStr name))))

/-- The static location-term dictionary of
`GooglePlacesService.removeLocationTerms`, verbatim. -/
def locationTerms : List Str :=
  (["al", "alabama", "ak", "alaska", "az", "arizona", "ar", "arkansas", "ca", "california",
    "co", "colorado", "ct", "connecticut", "de", "delaware", "fl", "florida", "ga", "georgia",
    "hi", "hawaii", "id", "idaho", "il", "illinois", "in", "indiana", "ia", "iowa",
    "ks", "kansas", "ky", "kentucky", "la", "louisiana", "me", "maine", "md", "maryland",
    "ma", "massachusetts", "mi", "michigan", "mn", "minnesota", "ms", "mississippi",
    "mo", "missouri", "mt", "montana", "ne", "nebraska", "nv", "nevada", "nh", "new hampshire",
    "nj", "new jersey", "nm", "new mexico", "ny", "new york", "nc", "north carolina",
    "nd", "north dakota", "oh", "ohio", "ok", "oklahoma", "or", "oregon", "pa", "pennsylvania",
    "ri", "rhode island", "sc", "south carolina", "sd", "south dakota", "tn", "tennessee",
    "tx", "texas", "ut", "utah", "vt", "vermont", "va", "virginia", "wa", "washington",
    "wv", "west virginia", "wi", "wisconsin", "wy", "wyoming",
    "city", "town", "village", "downtown", "metro", "area", "region", "county",
    "houston", "dallas", "austin", "san antonio", "fort worth", "el paso", "arlington",
    "corpus christi", "plano", "laredo", "lubbock", "garland", "irving", "amarillo",
    "grand prairie", "brownsville", "pasadena", "mesquite", "mckinney", "killeen",
    "frisco", "carrollton", "denton", "midland", "abilene", "beaumont", "round rock",
    "richardson", "odessa", "waco", "lewisville", "tyler", "college station", "pearland",
    "sugar land", "baytown", "conroe", "longview", "bryan", "pharr", "missouri city",
    "temple", "flower mound", "league city", "cedar park", "harlingen", "north richland hills",
    "victoria", "san marcos", "new braunfels", "georgetown", "sherman", "rowlett",
    "texarkana", "huntsville", "galveston", "cedar hill", "wylie", "desoto", "burleson",
    "mansfield", "allen", "the woodlands", "pflugerville", "big spring", "mission",
    "port arthur", "euless", "grapevine", "bedford", "hurst", "keller", "coppell",
    "duncanville", "haltom city", "farmers branch", "southlake", "lancaster", "carrollton",
    "lorena", "hewitt", "robinson", "woodway", "bellmead", "lacy lakeview", "beverly hills"]).map
    String.toList

/-- `GooglePlacesService.removeLocationTerms`: split on spaces, drop every
word found in the location dictionary, re-join. -/
def removeLocationTerms (name : Str) : Str :=
  joinSpace ((splitOnSpace (lowerStr name)).filter (fun w => !locationTerms.contains w))

/-- The Levenshtein recurrence that `calculateStringSimilarity` fills its DP
matrix with (`matrix[i][j] = min(sub, ins, del)`, equal characters copy the
diagonal).  The fuel argument — always called with at least
`s.length + t.length`, which each recursive call decreases while consuming
fuel one by one, so the fallback line is unreachable — keeps the recursion
structural and hence kernel-computable. -/
def levFuel : Nat → Str → Str → Nat
  | _, [], t => t.length
  | _, s, [] => s.length
  | fuel + 1, a :: s, b :: t =>
    if a = b then levFuel fuel s t
    else 1 + min (min (levFuel fuel s t) (levFuel fuel (a :: s) t)) (levFuel fuel s (b :: t))
  | 0, a :: s, b :: t => max (a :: s).length (b :: t).length

/-- Levenshtein edit distance between two strings, as computed by the DP
matrix of `GooglePlacesService.calculateStringSimilarity`. -/
def levDist (s t : Str) : Nat := levFuel (s.length + t.length) s t

/-- `GooglePlacesService.calculateStringSimilarity`: the two zero-length early
returns, then `1 - distance / maxLength`. -/
def calculateStringSimilarity (str1 str2 : Str) : ℚ :=
  if str1.length = 0 then (if str2.length = 0 then 1 else 0)
  else if str2.length = 0 then 0
  else 1 - (levDist str1 str2 : ℚ) / (max str1.length str2.length : ℚ)

/-- The business name extracted from the search query by
`isBusinessNameMatch`: `searchQuery.trim().split(',')[0].trim().toLowerCase()`. -/
def searchBusinessName (searchQuery : Str) : Str :=
  lowerStr (trimStr (beforeComma (trimStr searchQuery)))

/-- `cleanSearchName` of `isBusinessNameMatch`. -/
def cleanedSearchName (searchQuery : Str) : Str :=
  cleanBusinessName (searchBusinessName searchQuery)

/-- `cleanFoundName` of `isBusinessNameMatch` (the found name is lower-cased
first). -/
def cleanedFoundName (foundBusinessName : Str) : Str :=
  cleanBusinessName (lowerStr foundBusinessName)

/-- `searchWithoutLocation` of `isBusinessNameMatch`. -/
def searchNoLoc (searchQuery : Str) : Str :=
  removeLocationTerms (cleanedSearchName searchQuery)

/-- `foundWithoutLocation` of `isBusinessNameMatch`. -/
def foundNoLoc (foundBusinessName : Str) : Str :=
  removeLocationTerms (cleanedFoundName foundBusinessName)

/-- Keyword extraction `(x.trim() || y).split(' ').filter(word => word.length > 2)`:
the location-filtered string when it trims to something non-empty, otherwise
the fully-cleaned string, split into words longer than two characters. -/
def keywordsOf (noLoc cleaned : Str) : List Str :=
  (splitOnSpace (if trimStr noLoc ≠ [] then trimStr noLoc else cleaned)).filter
    (fun w => w.length > 2)

/-- `searchWords` of `isBusinessNameMatch`. -/
def searchTokens (searchQuery : Str) : List Str :=
  keywordsOf (searchNoLoc searchQuery) (cleanedSearchName searchQuery)

/-- `foundWords` of `isBusinessNameMatch`. -/
def foundTokens (foundBusinessName : Str) : List Str :=
  keywordsOf (foundNoLoc foundBusinessName) (cleanedFoundName foundBusinessName)

/-- Outcome of the inner candidate-word loop for one query word. -/
inductive TokenHit where
  | exactHit
  | looseHit
  | noHit
deriving DecidableEq

/-- The inner loop of the keyword-matching step: scan the candidate's words in
order and stop at the first word that is equal (an exact hit) or — for words
longer than four characters on both sides that stand in a substring relation —
at least 80% similar (a loose hit). -/
def firstHit (searchWord : Str) : List Str → TokenHit
  | [] => .noHit
  | foundWord :: rest =>
    if searchWord = foundWord then .exactHit
    else if searchWord.length > 4 ∧ foundWord.length > 4 ∧
        (strIncludes foundWord searchWord = true ∨ strIncludes searchWord foundWord = true) ∧
        calculateStringSimilarity searchWord foundWord ≥ 4/5 then .looseHit
    else firstHit searchWord rest

/-- `exactMatches` of `isBusinessNameMatch`: how many query words obtain an
exact hit among the candidate's words. -/
def exactHitCount (searchQuery foundBusinessName : Str) : Nat :=
  (searchTokens searchQuery).countP
    (fun w => firstHit w (foundTokens foundBusinessName) = .exactHit)

/-- The establishment-type word list `searchTypeWords` of
`isBusinessNameMatch`, in source order. -/
def establishmentTypeWords : List Str :=
  ["restaurant", "cafe", "bistro", "grill", "grille", "bar", "pub", "diner",
   "pizzeria", "bakery"].map String.toList

/-- `searchTypes` of `isBusinessNameMatch`: the query words that are
establishment-type words. -/
def searchTypesOf (searchQuery : Str) : List Str :=
  (searchTokens searchQuery).filter (fun w => establishmentTypeWords.contains w)

/-- `foundTypes` of `isBusinessNameMatch`. -/
def foundTypesOf (foundBusinessName : Str) : List Str :=
  (foundTokens foundBusinessName).filter (fun w => establishmentTypeWords.contains w)

/-- Two type words are compatible when equal, with `grill` and `grille`
identified. -/
def typeCompatible (s f : Str) : Prop :=
  s = f ∨ (s = "grill".toList ∧ f = "grille".toList) ∨
    (s = "grille".toList ∧ f = "grill".toList)

instance (s f : Str) : Decidable (typeCompatible s f) := by
  unfold typeCompatible; infer_instance

/-- `hasTypeMatch` of `isBusinessNameMatch`. -/
def hasTypeMatch (searchQuery foundBusinessName : Str) : Bool :=
  (searchTypesOf searchQuery).any (fun s =>
    (foundTypesOf foundBusinessName).any (fun f => decide (typeCompatible s f)))

/-- The hard rejection of the multi-word branch: both names carry an
establishment-type word and no pair of carried type words is compatible. -/
def typeIncompat (searchQuery foundBusinessName : Str) : Prop :=
  (searchTokens searchQuery).any (fun w => establishmentTypeWords.contains w) = true ∧
  (foundTokens foundBusinessName).any (fun w => establishmentTypeWords.contains w) = true ∧
  hasTypeMatch searchQuery foundBusinessName = false

instance (q c : Str) : Decidable (typeIncompat q c) := by
  unfold typeIncompat; infer_instance

/-- `hasLocationTerms` of `isBusinessNameMatch`: location filtering shortened
the cleaned query string. -/
def locShortened (searchQuery : Str) : Prop :=
  (searchNoLoc searchQuery).length < (cleanedSearchName searchQuery).length

instance (q : Str) : Decidable (locShortened q) := by
  unfold locShortened; infer_instance

/-- `requiredMatches = Math.ceil(totalKeywords * requiredMatchRatio)` with
ratio 0.6 when location terms were filtered out of the query and 0.75
otherwise. -/
def requiredExact (searchQuery : Str) : ℤ :=
  ⌈((max (searchTokens searchQuery).length 1 : ℕ) : ℚ) *
    (if locShortened searchQuery then 3/5 else 3/4)⌉

/-- The exact-match check on location-filtered names (needs a non-empty
string). -/
def exactNoLocMatch (searchQuery foundBusinessName : Str) : Prop :=
  foundNoLoc foundBusinessName = searchNoLoc searchQuery ∧
    trimStr (searchNoLoc searchQuery) ≠ []

instance (q c : Str) : Decidable (exactNoLocMatch q c) := by
  unfold exactNoLocMatch; infer_instance

/-- The exact-match check on fully-cleaned names (no non-emptiness
requirement). -/
def exactCleanMatch (searchQuery foundBusinessName : Str) : Prop :=
  cleanedFoundName foundBusinessName = cleanedSearchName searchQuery

instance (q c : Str) : Decidable (exactCleanMatch q c) := by
  unfold exactCleanMatch; infer_instance

/-- The fuzzy fallback condition: similarity of the fully-cleaned names is at
least 0.95. -/
def fuzzyOk (searchQuery foundBusinessName : Str) : Prop :=
  calculateStringSimilarity (cleanedSearchName searchQuery)
    (cleanedFoundName foundBusinessName) ≥ 95/100

instance (q c : Str) : Decidable (fuzzyOk q c) := by
  unfold fuzzyOk; infer_instance

/-- `GooglePlacesService.isBusinessNameMatch`, with the source's control flow:
exact match on location-filtered names, exact match on fully-cleaned names,
then the keyword step (single-word queries need the one word hit exactly;
multi-word queries are first rejected on incompatible establishment types and
otherwise need `exactMatches ≥ requiredMatches`), and finally the ≥ 0.95 fuzzy
fallback. -/
def isBusinessNameMatch (searchQuery foundBusinessName : Str) : Bool :=
  if exactNoLocMatch searchQuery foundBusinessName then true
  else if exactCleanMatch searchQuery foundBusinessName then true
  else if max (searchTokens searchQuery).length 1 = 1 then
    if exactHitCount searchQuery foundBusinessName = 1 then true
    else decide (fuzzyOk searchQuery foundBusinessName)
  else if typeIncompat searchQuery foundBusinessName then false
  else if (exactHitCount searchQuery foundBusinessName : ℤ) ≥ requiredExact searchQuery then true
  else decide (fuzzyOk searchQuery foundBusinessName)

/-- The `'A' | 'B' | 'C'` lead tier of the schema. -/
inductive Tier where
  | A
  | B
  | C
deriving DecidableEq

/-- The `'High' | 'Medium' | 'Low'` urgency level. -/
inductive Urgency where
  | high
  | medium
  | low
deriving DecidableEq

/-- A `Competitor` record (`shared/schema.ts`): the fields used by the
scoring engine plus the identifying ones. -/
structure Competitor where
  id : Str
  leadId : Str
  name : Str
  rating : ℚ
  reviewCount : ℕ
  distance : ℚ
  placeId : Str

/-- A `Lead` record (`shared/schema.ts`), restricted to the fields the
scoring path reads. -/
structure Lead where
  id : Str
  name : Str
  address : Str
  rating : ℚ
  reviewCount : ℕ

/-- JavaScript `Math.round`: round half toward positive infinity. -/
def jsRound (q : ℚ) : ℤ := ⌊q + 1/2⌋

/-- Result of `ScoringService.calculateMarketStats`. -/
structure MarketStats where
  averageRating : ℚ
  averageReviews : ℤ
  totalCompetitors : ℕ
  highPerformers : ℕ
  reviewRangeMin : ℕ
  reviewRangeMax : ℕ
deriving DecidableEq

/-- `ScoringService.calculateMarketStats`: zeroed statistics for an empty
cohort, otherwise rounded averages (`Math.round(avg*10)/10` for the rating,
`Math.round` for the reviews), the count of competitors with rating ≥ 4.5 and
at least 100 reviews, and the review-count range. -/
def calculateMarketStats : List Competitor → MarketStats
  | [] =>
    { averageRating := 0, averageReviews := 0, totalCompetitors := 0,
      highPerformers := 0, reviewRangeMin := 0, reviewRangeMax := 0 }
  | c :: rest =>
    let competitors := c :: rest
    let ratings := competitors.map (·.rating)
    let reviewCounts := competitors.map (·.reviewCount)
    let averageRating := ratings.sum / ratings.length
    let averageReviews := (reviewCounts.sum : ℚ) / reviewCounts.length
    { averageRating := (jsRound (averageRating * 10) : ℚ) / 10,
      averageReviews := jsRound averageReviews,
      totalCompetitors := competitors.length,
      highPerformers :=
        (competitors.filter (fun x => x.rating ≥ 9/2 ∧ x.reviewCount ≥ 100)).length,
      reviewRangeMin := rest.foldl (fun m x => min m x.reviewCount) c.reviewCount,
      reviewRangeMax := rest.foldl (fun m x => max m x.reviewCount) c.reviewCount }

/-- The market-opportunity narrative of `generateMarketOpportunity`, modelled
by which template the function selects together with the numbers interpolated
into it (string rendering is presentation detail). -/
inductive Opportunity where
  | noCompetitors (rating : ℚ) (reviews : ℕ)
  | significantGap (total : ℕ) (avgRating : ℚ) (avgReviews : ℤ) (gapAbs : ℕ)
  | clearGap (total : ℕ) (avgRating : ℚ) (avgReviews : ℤ) (gapAbs : ℕ)
  | established (total : ℕ) (avgRating : ℚ) (avgReviews : ℤ)
      (ratingAbove : Bool) (strong : Bool)
deriving DecidableEq

/-- `ScoringService.generateMarketOpportunity`: branch on the size of the
review gap against the (rounded) market average. -/
def generateMarketOpportunity (rating : ℚ) (reviewCount : ℕ) (m : MarketStats) :
    Opportunity :=
  if m.totalCompetitors = 0 then .noCompetitors rating reviewCount
  else
    let competitiveGap : ℤ := (reviewCount : ℤ) - m.averageReviews
    let ratingAbove := decide (rating ≥ m.averageRating)
    if competitiveGap < -50 then
      .significantGap m.totalCompetitors m.averageRating m.averageReviews competitiveGap.natAbs
    else if competitiveGap < 0 then
      .clearGap m.totalCompetitors m.averageRating m.averageReviews competitiveGap.natAbs
    else
      .established m.totalCompetitors m.averageRating m.averageReviews ratingAbove
        (decide (competitiveGap > 0))

/-- The `competitivePosition` text, modelled by template identity and
interpolated numbers. -/
inductive CompetitivePosition where
  | serviceIssues (rating : ℚ)
  | wellEstablished (reviews : ℕ)
  | perfectTarget (rating : ℚ) (reviews : ℕ)
  | solidTarget (rating : ℚ) (reviews : ℕ)
deriving DecidableEq

/-- The four fixed `actionableRecommendations` lists of `scoreLead`. -/
inductive Recommendations where
  | qualityFirst
  | maintenance
  | aggressiveAcquisition
  | boostToHundred
deriving DecidableEq

/-- The `gapAnalysis` text of `scoreLead`, modelled by the numbers it reports:
with a cohort it shows the rounded competitor average and the rounded signed
gap, without one the no-data sentence. -/
inductive GapAnalysis where
  | withCohort (rating : ℚ) (reviews : ℕ) (avgRounded : ℤ) (gapRounded : ℤ)
      (gapPositive : Bool)
  | noCohort (rating : ℚ) (reviews : ℕ)
deriving DecidableEq

/-- A piece of insight text: either generated from a template by `scoreLead`
or replaced by a raw string from the AI response. -/
inductive OpportunityText where
  | generated (o : Opportunity)
  | fromAI (s : Str)
deriving DecidableEq

/-- Competitive-position text: generated or replaced by an AI string. -/
inductive PositionText where
  | generated (p : CompetitivePosition)
  | fromAI (s : Str)
deriving DecidableEq

/-- A parsed JSON value as far as the AI-merge code inspects it: a string, an
array, or anything else. -/
inductive JVal where
  | str (s : Str)
  | arr (l : List JVal)
  | other

/-- The `MarketingInsights` record returned by the scoring service. -/
structure MarketingInsights where
  score : Tier
  gapAnalysis : GapAnalysis
  marketingOpportunity : OpportunityText
  actionableRecommendations : Recommendations
  competitivePosition : PositionText
  urgencyLevel : Urgency
  intelligentInsights : Option Str := none
  industrySpecificAdvice : Option Str := none
  aiRecommendations : Option (List JVal) := none

/-- `ScoringService.scoreLead`: the deterministic rule engine.  Rules in
source order: rating below 4.0 is tier C / high urgency; at least 100 reviews
is tier C / low urgency; rating at least 4.0 with fewer than 50 reviews is
tier A / high urgency; everything else is tier B / medium urgency.  The gap
analysis reports the competitor review average and the signed gap when a
cohort exists. -/
def scoreLead (rating : ℚ) (reviewCount : ℕ) (competitors : List Competitor) :
    MarketingInsights :=
  let marketStats := calculateMarketStats competitors
  let marketingOpportunity := generateMarketOpportunity rating reviewCount marketStats
  let gapAnalysis :=
    if competitors.length > 0 then
      let avgCompetitorReviews : ℚ :=
        ((competitors.map (·.reviewCount)).sum : ℚ) / competitors.length
      let reviewGap : ℚ := (reviewCount : ℚ) - avgCompetitorReviews
      GapAnalysis.withCohort rating reviewCount (jsRound avgCompetitorReviews)
        (jsRound reviewGap) (decide (reviewGap > 0))
    else GapAnalysis.noCohort rating reviewCount
  if rating < 4 then
    { score := .C, urgencyLevel := .high, gapAnalysis := gapAnalysis,
      marketingOpportunity := .generated marketingOpportunity,
      actionableRecommendations := .qualityFirst,
      competitivePosition := .generated (.serviceIssues rating) }
  else if reviewCount ≥ 100 then
    { score := .C, urgencyLevel := .low, gapAnalysis := gapAnalysis,
      marketingOpportunity := .generated marketingOpportunity,
      actionableRecommendations := .maintenance,
      competitivePosition := .generated (.wellEstablished reviewCount) }
  else if rating ≥ 4 ∧ reviewCount < 50 then
    { score := .A, urgencyLevel := .high, gapAnalysis := gapAnalysis,
      marketingOpportunity := .generated marketingOpportunity,
      actionableRecommendations := .aggressiveAcquisition,
      competitivePosition := .generated (.perfectTarget rating reviewCount) }
  else
    { score := .B, urgencyLevel := .medium, gapAnalysis := gapAnalysis,
      marketingOpportunity := .generated marketingOpportunity,
      actionableRecommendations := .boostToHundred,
      competitivePosition := .generated (.solidTarget rating reviewCount) }

/-- The JSON object produced by the AI call in `scoreLeadWithAI`, as far as
the merge inspects it (field presence and runtime type). -/
structure AIRawInsights where
  intelligentInsights : JVal
  industrySpecificAdvice : JVal
  personalizedRecommendations : JVal
  marketOpportunity : JVal
  competitivePositioning : JVal

/-- `ScoringService.scoreLeadWithAI`, with the outcome of the network call to
the text-generation collaborator passed in as data: `Except.error` is the
`catch` branch (return the basic insights unchanged), `Except.ok` merges the
AI fields over the basic insights — the `score` field is never overridden.
The `typeof x === 'string'` and `Array.isArray` guards become matches on
`JVal`. -/
def scoreLeadWithAI (lead : Lead) (competitors : List Competitor)
    (aiOutcome : Except Unit AIRawInsights) : MarketingInsights :=
  let basicInsights := scoreLead lead.rating lead.reviewCount competitors
  match aiOutcome with
  | .error _ => basicInsights
  | .ok ai =>
    { basicInsights with
      intelligentInsights :=
        some (match ai.intelligentInsights with
          | .str s => s
          | _ => "AI analysis results available".toList),
      industrySpecificAdvice :=
        some (match ai.industrySpecificAdvice with
          | .str s => s
          | _ => "Industry-specific recommendations available".toList),
      aiRecommendations :=
        some (match ai.personalizedRecommendations with
          | .arr l => l
          | _ => [.str "AI-powered recommendations available".toList]),
      marketingOpportunity :=
        (match ai.marketOpportunity with
          | .str s => .fromAI s
          | _ => basicInsights.marketingOpportunity),
      competitivePosition :=
        (match ai.competitivePositioning with
          | .str s => .fromAI s
          | _ => basicInsights.competitivePosition) }

/-- A `TenPackBusiness` record (`TenPackAnalysisService`). -/
structure TenPackBusiness where
  name : Str
  rating : ℚ
  reviewCount : ℕ
  placeId : Str
  address : Str
deriving DecidableEq

/-- The `entryThreshold` component of a ten-pack analysis. -/
structure EntryThreshold where
  reviewsNeeded : ℤ
  ratingNeeded : ℚ
deriving DecidableEq

/-- The statistics block of a `TenPackAnalysis`. -/
structure TenPackAnalysis where
  businesses : List TenPackBusiness
  averageRating : ℚ
  averageReviews : ℚ
  medianReviews : ℚ
  reviewRangeMin : ℕ
  reviewRangeMax : ℕ
  ratingRangeMin : ℚ
  ratingRangeMax : ℚ
  topPerformer : TenPackBusiness
  entryThreshold : EntryThreshold
deriving DecidableEq

/-- The median-of-reviews computation of `analyzeTenPack`: sort ascending
(`.sort((a, b) => a - b)`, modelled by insertion sort — any correct
comparison sort of natural numbers produces the same list), then take the
middle element, or the mean of the two middle elements for even length. -/
def medianOf (reviewCounts : List ℕ) : ℚ :=
  let sortedReviews := reviewCounts.insertionSort (· ≤ ·)
  if sortedReviews.length % 2 = 0 then
    ((sortedReviews.getD (sortedReviews.length / 2 - 1) 0 : ℚ) +
      (sortedReviews.getD (sortedReviews.length / 2) 0 : ℚ)) / 2
  else (sortedReviews.getD (sortedReviews.length / 2) 0 : ℚ)

/-- The statistics portion of `TenPackAnalysisService.analyzeTenPack`
(`storage.ts` lines 184–234), as a function of the filtered business list.
On an empty list the source's `businesses.reduce(...)` for `topPerformer`
throws a `TypeError` (reduce of an empty array with no initial value), so the
computation is modelled as `Option`, `none` exactly on the empty cohort.  For
a non-empty cohort: arithmetic means, the median, ranges via `Math.min`/
`Math.max`, the top performer by highest rating with higher review count as
tie-break (first occurrence retained on full ties), and the entry threshold
taken from the last business in the cohort's given order (the `tenthPosition
? ... : Math.ceil(averageReviews * 0.7)` fallback is kept, though a non-empty
cohort always has a truthy last element). -/
def tenPackStats : List TenPackBusiness → Option TenPackAnalysis
  | [] => none
  | b :: rest =>
    let businesses := b :: rest
    let ratings := businesses.map (·.rating)
    let reviewCounts := businesses.map (·.reviewCount)
    let averageRating := ratings.sum / ratings.length
    let averageReviews := (reviewCounts.sum : ℚ) / reviewCounts.length
    let ratingMin := (rest.map (·.rating)).foldl min b.rating
    let ratingMax := (rest.map (·.rating)).foldl max b.rating
    let topPerformer := rest.foldl
      (fun top current =>
        if current.rating > top.rating then current
        else if current.rating = top.rating ∧ current.reviewCount > top.reviewCount then
          current
        else top) b
    some
      { businesses := businesses,
        averageRating := averageRating,
        averageReviews := averageReviews,
        medianReviews := medianOf reviewCounts,
        reviewRangeMin := (rest.map (·.reviewCount)).foldl min b.reviewCount,
        reviewRangeMax := (rest.map (·.reviewCount)).foldl max b.reviewCount,
        ratingRangeMin := ratingMin,
        ratingRangeMax := ratingMax,
        topPerformer := topPerformer,
        entryThreshold :=
          { reviewsNeeded :=
              match businesses.getLast? with
              | some tenthPosition => (tenthPosition.reviewCount : ℤ) + 1
              | none => ⌈averageReviews * (7/10)⌉,
            ratingNeeded := max 4 ratingMin } }

/-! ## Helper lemmas -/

theorem levFuel_self : ∀ (n : Nat) (s : Str), s.length ≤ n → levFuel n s s = 0 := by
  intro n
  induction n with
  | zero =>
    intro s hs
    cases s with
    | nil => rfl
    | cons a t => simp at hs
  | succ n ih =>
    intro s hs
    cases s with
    | nil => rfl
    | cons a t =>
      simp only [levFuel, if_pos rfl]
      exact ih t (by simpa using Nat.le_of_succ_le_succ hs)

theorem calculateStringSimilarity_self (s : Str) : calculateStringSimilarity s s = 1 := by
  unfold calculateStringSimilarity levDist
  cases s with
  | nil => simp
  | cons a t =>
    rw [if_neg (by simp), if_neg (by simp)]
    rw [levFuel_self ((a :: t).length + (a :: t).length) (a :: t) (by omega)]
    simp

theorem foldl_min_le_init {α : Type} [LinearOrder α] :
    ∀ (l : List α) (x : α), l.foldl min x ≤ x := by
  intro l
  induction l with
  | nil => intro x; simp
  | cons a t ih =>
    intro x
    calc (a :: t).foldl min x = t.foldl min (min x a) := rfl
    _ ≤ min x a := ih (min x a)
    _ ≤ x := min_le_left x a

theorem foldl_min_le_mem {α : Type} [LinearOrder α] :
    ∀ (l : List α) (x : α) (y : α), y ∈ l → l.foldl min x ≤ y := by
  intro l
  induction l with
  | nil => intro x y hy; simp at hy
  | cons a t ih =>
    intro x y hy
    rcases List.mem_cons.mp hy with h | h
    · rw [h]
      calc (a :: t).foldl min x = t.foldl min (min x a) := rfl
      _ ≤ min x a := foldl_min_le_init t (min x a)
      _ ≤ a := min_le_right x a
    · exact ih (min x a) y h

theorem foldl_min_mem {α : Type} [LinearOrder α] :
    ∀ (l : List α) (x : α), l.foldl min x = x ∨ l.foldl min x ∈ l := by
  intro l
  induction l with
  | nil => intro x; simp
  | cons a t ih =>
    intro x
    rcases ih (min x a) with h | h
    · rcases min_choice x a with hc | hc
      · left
        show t.foldl min (min x a) = x
        rw [h, hc]
      · right
        show t.foldl min (min x a) ∈ a :: t
        rw [h, hc]
        exact List.mem_cons_self a t
    · right
      exact List.mem_cons_of_mem a h

theorem foundTokens_eq_of_noLoc_eq (q c : Str)
    (h : foundNoLoc c = searchNoLoc q) (hne : trimStr (searchNoLoc q) ≠ []) :
    foundTokens c = searchTokens q := by
  unfold foundTokens searchTokens keywordsOf
  rw [h, if_pos hne, if_pos hne]

theorem foundTokens_eq_of_clean_eq (q c : Str)
    (h : cleanedFoundName c = cleanedSearchName q) :
    foundTokens c = searchTokens q := by
  unfold foundTokens searchTokens foundNoLoc searchNoLoc
  rw [h]

theorem hasTypeMatch_of_tokens_eq (q c : Str)
    (h : foundTokens c = searchTokens q)
    (hs : (searchTokens q).any (fun w => establishmentTypeWords.contains w) = true) :
    hasTypeMatch q c = true := by
  unfold hasTypeMatch searchTypesOf foundTypesOf
  rw [h]
  rw [List.any_eq_true] at hs
  obtain ⟨w, hw, hmem⟩ := hs
  rw [List.any_eq_true]
  refine ⟨w, List.mem_filter.mpr ⟨hw, hmem⟩, ?_⟩
  rw [List.any_eq_true]
  exact ⟨w, List.mem_filter.mpr ⟨hw, hmem⟩, by simp [typeCompatible]⟩

/-! ## Claim theorems -/

/-- C1: the lead scoring function evaluates its fixed rules in order, first
match winning: rating below 4.0 gives tier C with high urgency; otherwise at
least 100 reviews gives tier C with low urgency; otherwise rating at least
4.0 with fewer than 50 reviews gives tier A with high urgency; otherwise tier
B with medium urgency.  In particular (3.9, 10) gives C, (4.5, 30) gives A,
(4.5, 150) gives C and (4.2, 70) gives B, for every competitor cohort. -/
theorem c1_lead_scoring_rules (rating : ℚ) (reviewCount : ℕ)
    (competitors : List Competitor) :
    (rating < 4 →
      (scoreLead rating reviewCount competitors).score = Tier.C ∧
      (scoreLead rating reviewCount competitors).urgencyLevel = Urgency.high) ∧
    (¬ rating < 4 → 100 ≤ reviewCount →
      (scoreLead rating reviewCount competitors).score = Tier.C ∧
      (scoreLead rating reviewCount competitors).urgencyLevel = Urgency.low) ∧
    (4 ≤ rating → reviewCount < 50 →
      (scoreLead rating reviewCount competitors).score = Tier.A ∧
      (scoreLead rating reviewCount competitors).urgencyLevel = Urgency.high) ∧
    (4 ≤ rating → 50 ≤ reviewCount → reviewCount < 100 →
      (scoreLead rating reviewCount competitors).score = Tier.B ∧
      (scoreLead rating reviewCount competitors).urgencyLevel = Urgency.medium) ∧
    (scoreLead (39/10) 10 competitors).score = Tier.C ∧
    (scoreLead (9/2) 30 competitors).score = Tier.A ∧
    (scoreLead (9/2) 150 competitors).score = Tier.C ∧
    (scoreLead (21/5) 70 competitors).score = Tier.B := by
  refine ⟨?_, ?_, ?_, ?_, ?_, ?_, ?_, ?_⟩
  · intro h
    constructor <;> simp [scoreLead, h]
  · intro h1 h2
    constructor <;> simp [scoreLead, h1, h2]
  · intro h1 h2
    have hn1 : ¬ rating < 4 := not_lt.mpr h1
    have hn2 : ¬ 100 ≤ reviewCount := by omega
    constructor <;> simp [scoreLead, hn1, hn2, h1, h2]
  · intro h1 h2 h3
    have hn1 : ¬ rating < 4 := not_lt.mpr h1
    have hn2 : ¬ 100 ≤ reviewCount := by omega
    have hn3 : ¬ (4 ≤ rating ∧ reviewCount < 50) := by
      rintro ⟨-, hlt⟩
      omega
    constructor <;> simp [scoreLead, hn1, hn2, hn3]
  · have h : ((39:ℚ)/10) < 4 := by norm_num
    simp [scoreLead, h]
  · have h1 : ¬ ((9:ℚ)/2) < 4 := by norm_num
    have h2 : ¬ 100 ≤ 30 := by omega
    have h3 : ((9:ℚ)/2) ≥ 4 ∧ 30 < 50 := ⟨by norm_num, by omega⟩
    simp [scoreLead, h1, h2, h3]
  · have h1 : ¬ ((9:ℚ)/2) < 4 := by norm_num
    have h2 : (100:ℕ) ≤ 150 := by omega
    simp [scoreLead, h1, h2]
  · have h1 : ¬ ((21:ℚ)/5) < 4 := by norm_num
    have h2 : ¬ 100 ≤ 70 := by omega
    have h3 : ¬ (((21:ℚ)/5) ≥ 4 ∧ 70 < 50) := by
      rintro ⟨-, hlt⟩
      omega
    simp [scoreLead, h1, h2, h3]

/-- Witness for C1 at rating 3.9 with 10 reviews and an empty cohort. -/
theorem c1_lead_scoring_rules_witness :
    ((39:ℚ)/10 < 4) ∧
    (scoreLead (39/10) 10 []).score = Tier.C ∧
    (scoreLead (39/10) 10 []).urgencyLevel = Urgency.high := by
  have h : ((39:ℚ)/10) < 4 := by with_unfolding_all decide
  exact ⟨h, (c1_lead_scoring_rules (39/10) 10 []).1 h⟩

/-- C9: the tier returned by the AI-augmented scoring path always equals the
tier of the plain rule-based scoring on the same inputs, whatever the outcome
of the text-generation call, and two runs on the same inputs agree. -/
theorem c9_tier_pure_function (lead : Lead) (competitors : List Competitor)
    (aiOutcome aiOutcome2 : Except Unit AIRawInsights) :
    (scoreLeadWithAI lead competitors aiOutcome).score =
      (scoreLead lead.rating lead.reviewCount competitors).score ∧
    (scoreLeadWithAI lead competitors aiOutcome).score =
      (scoreLeadWithAI lead competitors aiOutcome2).score := by
  cases aiOutcome <;> cases aiOutcome2 <;> simp [scoreLeadWithAI]

/-- C6 counterexample: on the empty cohort the ten-pack aggregation of
`analyzeTenPack` does not return a zeroed statistics value — the
`topPerformer` reduction of an empty array throws, modelled as `none`. -/
theorem c6_counterexample : tenPackStats [] = none := rfl

/-- C6 (amended): `calculateMarketStats` applied to an empty cohort returns
the zeroed statistics value and never raises, while the ten-pack aggregation
returns a full statistics value exactly on non-empty cohorts and fails on the
empty one. -/
theorem c6_empty_cohort_amended :
    calculateMarketStats [] =
      { averageRating := 0, averageReviews := 0, totalCompetitors := 0,
        highPerformers := 0, reviewRangeMin := 0, reviewRangeMax := 0 } ∧
    (∀ bs : List TenPackBusiness, bs ≠ [] → (tenPackStats bs).isSome = true) := by
  refine ⟨rfl, ?_⟩
  intro bs h
  cases bs with
  | nil => exact absurd rfl h
  | cons b rest => simp [tenPackStats]

/-- A one-element cohort used to witness C6. -/
def oneBusinessCohort : List TenPackBusiness :=
  [{ name := [], rating := 4, reviewCount := 10, placeId := [], address := [] }]

/-- Witness for C6 (amended) on a one-element cohort. -/
theorem c6_empty_cohort_amended_witness :
    oneBusinessCohort ≠ [] ∧ (tenPackStats oneBusinessCohort).isSome = true := by
  refine ⟨by simp [oneBusinessCohort], ?_⟩
  exact c6_empty_cohort_amended.2 _ (by simp [oneBusinessCohort])

/-- C7: over a non-empty cohort, taken in its given (provider-ranked) order,
the entry threshold satisfies `reviewsNeeded = last member's review count + 1`
and `ratingNeeded = max 4.0 (minimum rating in the cohort)`. -/
theorem c7_entry_threshold (bs : List TenPackBusiness) (h : bs ≠ []) :
    ∃ a, tenPackStats bs = some a ∧
      a.entryThreshold.reviewsNeeded = ((bs.getLast h).reviewCount : ℤ) + 1 ∧
      ∃ m, a.entryThreshold.ratingNeeded = max 4 m ∧
        m ∈ bs.map (·.rating) ∧ ∀ r ∈ bs.map (·.rating), m ≤ r := by
  cases bs with
  | nil => exact absurd rfl h
  | cons b rest =>
    refine ⟨_, rfl, ?_, ?_⟩
    · have hg : (b :: rest).getLast? = some ((b :: rest).getLast h) :=
        List.getLast?_eq_getLast _ h
      dsimp only
      rw [hg]
    · refine ⟨(rest.map (·.rating)).foldl min b.rating, rfl, ?_, ?_⟩
      · rcases foldl_min_mem (rest.map (·.rating)) b.rating with hm | hm
        · rw [List.map_cons, hm]
          exact List.mem_cons_self _ _
        · rw [List.map_cons]
          exact List.mem_cons_of_mem _ hm
      · intro r hr
        rw [List.map_cons] at hr
        rcases List.mem_cons.mp hr with h1 | h1
        · rw [h1]
          exact foldl_min_le_init _ _
        · exact foldl_min_le_mem _ _ _ h1

/-- A two-element cohort whose last member has 42 reviews, used to witness
C7. -/
def rankedCohort : List TenPackBusiness :=
  [{ name := [], rating := 9/2, reviewCount := 10, placeId := [], address := [] },
   { name := [], rating := 21/5, reviewCount := 42, placeId := [], address := [] }]

/-- Witness for C7: the last member of `rankedCohort` has 42 reviews, so
`reviewsNeeded = 43`. -/
theorem c7_entry_threshold_witness :
    rankedCohort ≠ [] ∧
    ∃ a, tenPackStats rankedCohort = some a ∧
      a.entryThreshold.reviewsNeeded = 43 := by
  refine ⟨by simp [rankedCohort], ?_⟩
  obtain ⟨a, ha, hr, -⟩ := c7_entry_threshold rankedCohort (by simp [rankedCohort])
  exact ⟨a, ha, by rw [hr]; rfl⟩

/-- The spec-side middle-of-a-sorted-list value for C8: the middle element for
odd length, the mean of the two middle elements for even length. -/
def middleOfSorted (s : List ℕ) : ℚ :=
  if s.length % 2 = 0 then
    ((s.getD (s.length / 2 - 1) 0 : ℚ) + (s.getD (s.length / 2) 0 : ℚ)) / 2
  else (s.getD (s.length / 2) 0 : ℚ)

/-- C8: the median statistic of the ten-pack aggregation is the standard
median of the members' review counts — the middle of a sorted permutation of
the counts (mean of the two middles for even length); in particular
[10, 20, 30, 40] gives 25 and [10, 20, 30] gives 20. -/
theorem c8_median_reviews :
    (∀ bs : List TenPackBusiness, bs ≠ [] →
      ∃ a, tenPackStats bs = some a ∧
        a.medianReviews = medianOf (bs.map (·.reviewCount))) ∧
    (∀ l : List ℕ, l ≠ [] →
      ∃ s, l.Perm s ∧ s.Sorted (· ≤ ·) ∧ medianOf l = middleOfSorted s) ∧
    medianOf [10, 20, 30, 40] = 25 ∧ medianOf [10, 20, 30] = 20 := by
  refine ⟨?_, ?_, ?_, ?_⟩
  · intro bs h
    cases bs with
    | nil => exact absurd rfl h
    | cons b rest => exact ⟨_, rfl, rfl⟩
  · intro l _
    exact ⟨l.insertionSort (· ≤ ·), (List.perm_insertionSort (· ≤ ·) l).symm,
      List.sorted_insertionSort (· ≤ ·) l, rfl⟩
  · with_unfolding_all decide
  · with_unfolding_all decide

/-- Witness for C8 at the cohort review list [10, 20, 30]. -/
theorem c8_median_reviews_witness :
    (([10, 20, 30] : List ℕ) ≠ []) ∧
    ∃ s, ([10, 20, 30] : List ℕ).Perm s ∧ s.Sorted (· ≤ ·) ∧
      medianOf [10, 20, 30] = middleOfSorted s := by
  refine ⟨by simp, ?_⟩
  exact c8_median_reviews.2.1 [10, 20, 30] (by simp)

/-- C10: whenever the fully-cleaned query name equals the fully-cleaned
candidate name the validator accepts — the cleaned-equality check carries no
non-emptiness requirement, so two names that clean to the empty string (such
as "LLC" and "Inc.") are declared a match. -/
theorem c10_clean_equality_accepts (q c : Str) (h : exactCleanMatch q c) :
    isBusinessNameMatch q c = true := by
  by_cases h1 : exactNoLocMatch q c
  · simp [isBusinessNameMatch, h1]
  · simp [isBusinessNameMatch, h1, h]

/-- Witness for C10: the degenerate pair "llc" and "Inc." both clean to the
empty string and are accepted. -/
theorem c10_clean_equality_accepts_witness :
    exactCleanMatch "llc".toList "Inc.".toList ∧
    isBusinessNameMatch "llc".toList "Inc.".toList = true := by
  have h : exactCleanMatch "llc".toList "Inc.".toList := by decide
  exact ⟨h, c10_clean_equality_accepts _ _ h⟩

/-- C2 counterexample: a multi-token query with no location terms is accepted
through the fuzzy fallback although its exact-hit count (1) is below the
required `ceil(2 * 0.75) = 2`. -/
theorem c2_counterexample :
    isBusinessNameMatch "abcdefghijklmnopqr xyz".toList
        "abcdefghijklmnopqrs xyz".toList = true ∧
    (searchTokens "abcdefghijklmnopqr xyz".toList).length = 2 ∧
    ¬ locShortened "abcdefghijklmnopqr xyz".toList ∧
    exactHitCount "abcdefghijklmnopqr xyz".toList "abcdefghijklmnopqrs xyz".toList = 1 ∧
    ¬ ((exactHitCount "abcdefghijklmnopqr xyz".toList
          "abcdefghijklmnopqrs xyz".toList : ℤ) ≥
        ⌈((searchTokens "abcdefghijklmnopqr xyz".toList).length : ℚ) * (3/4)⌉) := by
  with_unfolding_all decide

/-- C2 (amended): a multi-token query is accepted only if one of the two
exact-equality checks fires, or the exact-hit count reaches
`ceil(n * ratio)` (ratio 0.6 when location filtering shortened the cleaned
query, 0.75 otherwise), or the fully-cleaned similarity reaches the 0.95
fuzzy-fallback bar; the ceil threshold is necessary only for acceptance
through the keyword step. -/
theorem c2_multi_token_threshold (q c : Str)
    (hlen : 2 ≤ (searchTokens q).length)
    (hacc : isBusinessNameMatch q c = true) :
    exactNoLocMatch q c ∨ exactCleanMatch q c ∨
      (exactHitCount q c : ℤ) ≥
        ⌈((searchTokens q).length : ℚ) * (if locShortened q then 3/5 else 3/4)⌉ ∨
      fuzzyOk q c := by
  have hmax : max (searchTokens q).length 1 = (searchTokens q).length :=
    max_eq_left (by omega)
  by_cases h1 : exactNoLocMatch q c
  · exact Or.inl h1
  by_cases h2 : exactCleanMatch q c
  · exact Or.inr (Or.inl h2)
  unfold isBusinessNameMatch at hacc
  rw [if_neg h1, if_neg h2, if_neg (by omega : ¬ max (searchTokens q).length 1 = 1)] at hacc
  by_cases ht : typeIncompat q c
  · rw [if_pos ht] at hacc
    exact absurd hacc (by simp)
  rw [if_neg ht] at hacc
  by_cases hr : (exactHitCount q c : ℤ) ≥ requiredExact q
  · refine Or.inr (Or.inr (Or.inl ?_))
    unfold requiredExact at hr
    rw [hmax] at hr
    exact hr
  · rw [if_neg hr] at hacc
    exact Or.inr (Or.inr (Or.inr (of_decide_eq_true hacc)))

/-- Witness for C2 (amended) on an accepted two-token query. -/
theorem c2_multi_token_threshold_witness :
    2 ≤ (searchTokens "joes pizza".toList).length ∧
    isBusinessNameMatch "joes pizza".toList "joes pizza".toList = true ∧
    (exactNoLocMatch "joes pizza".toList "joes pizza".toList ∨
      exactCleanMatch "joes pizza".toList "joes pizza".toList ∨
      (exactHitCount "joes pizza".toList "joes pizza".toList : ℤ) ≥
        ⌈((searchTokens "joes pizza".toList).length : ℚ) *
          (if locShortened "joes pizza".toList then 3/5 else 3/4)⌉ ∨
      fuzzyOk "joes pizza".toList "joes pizza".toList) := by
  refine ⟨by decide, by decide, ?_⟩
  exact c2_multi_token_threshold _ _ (by decide) (by decide)

/-- C3 counterexample: the single-token query "plumbing" accepts the
candidate "plumbing experts" although the cleaned names differ, so exact
cleaned-name equality is not necessary for single-token acceptance. -/
theorem c3_counterexample :
    (searchTokens "plumbing".toList).length = 1 ∧
    isBusinessNameMatch "plumbing".toList "plumbing experts".toList = true ∧
    cleanedFoundName "plumbing experts".toList ≠ cleanedSearchName "plumbing".toList := by
  refine ⟨by decide, by decide, by decide⟩

/-- C3 (amended): a single-token query accepts a candidate exactly when one of
the two exact-equality checks fires, or the query's one token occurs verbatim
among the candidate's tokens (`exactHits = 1`), or the fully-cleaned
similarity reaches the 0.95 fuzzy-fallback bar; cleaned-name equality alone is
sufficient but not necessary. -/
theorem c3_single_token_acceptance (q c : Str)
    (h : (searchTokens q).length = 1) :
    isBusinessNameMatch q c = true ↔
      (exactNoLocMatch q c ∨ exactCleanMatch q c ∨
        exactHitCount q c = 1 ∨ fuzzyOk q c) := by
  have hmax : max (searchTokens q).length 1 = 1 := by rw [h]; exact max_self 1
  constructor
  · intro hacc
    by_cases h1 : exactNoLocMatch q c
    · exact Or.inl h1
    by_cases h2 : exactCleanMatch q c
    · exact Or.inr (Or.inl h2)
    unfold isBusinessNameMatch at hacc
    rw [if_neg h1, if_neg h2, if_pos hmax] at hacc
    by_cases h3 : exactHitCount q c = 1
    · exact Or.inr (Or.inr (Or.inl h3))
    · rw [if_neg h3] at hacc
      exact Or.inr (Or.inr (Or.inr (of_decide_eq_true hacc)))
  · intro hd
    unfold isBusinessNameMatch
    by_cases h1 : exactNoLocMatch q c
    · rw [if_pos h1]
    rw [if_neg h1]
    by_cases h2 : exactCleanMatch q c
    · rw [if_pos h2]
    rw [if_neg h2, if_pos hmax]
    by_cases h3 : exactHitCount q c = 1
    · rw [if_pos h3]
    rw [if_neg h3]
    rcases hd with hd | hd | hd | hd
    · exact absurd hd h1
    · exact absurd hd h2
    · exact absurd hd h3
    · exact decide_eq_true hd

/-- Witness for C3 (amended): the single-token query "plumbing" against the
identical candidate. -/
theorem c3_single_token_acceptance_witness :
    (searchTokens "plumbing".toList).length = 1 ∧
    isBusinessNameMatch "plumbing".toList "plumbing".toList = true := by
  refine ⟨by decide, ?_⟩
  exact (c3_single_token_acceptance _ _ (by decide)).mpr (Or.inr (Or.inl (by decide)))

/-- The validator state in which both exact-equality checks have failed and
the keyword step neither accepted nor hard-rejected, so control falls through
to the fuzzy fallback. -/
def fallsToFuzzy (q c : Str) : Prop :=
  ¬ exactNoLocMatch q c ∧ ¬ exactCleanMatch q c ∧
    ((max (searchTokens q).length 1 = 1 ∧ exactHitCount q c ≠ 1) ∨
     (max (searchTokens q).length 1 ≠ 1 ∧ ¬ typeIncompat q c ∧
       ¬ ((exactHitCount q c : ℤ) ≥ requiredExact q)))

instance (q c : Str) : Decidable (fallsToFuzzy q c) := by
  unfold fallsToFuzzy; infer_instance

/-- C4: when the exact-match and keyword-match steps both fail, the fuzzy
fallback accepts exactly when the similarity of the fully-cleaned names —
one minus the Levenshtein distance over the longer length — is at least
0.95; similarity of a string with itself is 1, and "Ace Plumbing" against
"Ace Electric" falls below 0.95 and is rejected. -/
theorem c4_fuzzy_fallback :
    (∀ q c : Str, fallsToFuzzy q c →
      (isBusinessNameMatch q c = true ↔ fuzzyOk q c)) ∧
    (∀ s : Str, calculateStringSimilarity s s = 1) ∧
    calculateStringSimilarity (cleanedSearchName "Ace Plumbing".toList)
        (cleanedFoundName "Ace Electric".toList) < 95/100 ∧
    isBusinessNameMatch "Ace Plumbing".toList "Ace Electric".toList = false := by
  refine ⟨?_, calculateStringSimilarity_self, ?_, ?_⟩
  · rintro q c ⟨h1, h2, h3 | h3⟩
    · unfold isBusinessNameMatch
      rw [if_neg h1, if_neg h2, if_pos h3.1, if_neg h3.2]
      exact decide_eq_true_iff
    · unfold isBusinessNameMatch
      rw [if_neg h1, if_neg h2, if_neg h3.1, if_neg h3.2.1, if_neg h3.2.2]
      exact decide_eq_true_iff
  · with_unfolding_all decide
  · with_unfolding_all decide

/-- Witness for C4 on a pair that reaches the fuzzy fallback and is
rejected there. -/
theorem c4_fuzzy_fallback_witness :
    fallsToFuzzy "red fox".toList "big dog".toList ∧
    isBusinessNameMatch "red fox".toList "big dog".toList = false := by
  have hf : fallsToFuzzy "red fox".toList "big dog".toList := by
    with_unfolding_all decide
  have hiff := c4_fuzzy_fallback.1 _ _ hf
  have hnf : ¬ fuzzyOk "red fox".toList "big dog".toList := by
    with_unfolding_all decide
  refine ⟨hf, ?_⟩
  cases hb : isBusinessNameMatch "red fox".toList "big dog".toList
  · rfl
  · exact absurd (hiff.mp hb) hnf

/-- The concrete query of the spec's establishment-type test case. -/
def tonysPizza : Str :=
  ['T', 'o', 'n', 'y', Char.ofNat 39, 's', ' ', 'P', 'i', 'z', 'z', 'a']

/-- The concrete candidate of the spec's establishment-type test case. -/
def tonysBistro : Str :=
  ['T', 'o', 'n', 'y', Char.ofNat 39, 's', ' ', 'B', 'i', 's', 't', 'r', 'o']

/-- C5: a multi-token query whose tokens and candidate tokens both carry an
establishment-type keyword with no compatible pair (grill and grille being
equivalent) is rejected; and the query "Tony's Pizza" against the candidate
"Tony's Bistro" is rejected. -/
theorem c5_type_incompatibility_rejects :
    (∀ q c : Str, 2 ≤ (searchTokens q).length → typeIncompat q c →
      isBusinessNameMatch q c = false) ∧
    isBusinessNameMatch tonysPizza tonysBistro = false := by
  constructor
  · rintro q c hlen ⟨hs, hf, hm⟩
    by_cases h1 : exactNoLocMatch q c
    · exfalso
      obtain ⟨he, hne⟩ := h1
      have htok := foundTokens_eq_of_noLoc_eq q c he hne
      rw [hasTypeMatch_of_tokens_eq q c htok hs] at hm
      exact Bool.noConfusion hm
    by_cases h2 : exactCleanMatch q c
    · exfalso
      have htok := foundTokens_eq_of_clean_eq q c h2
      rw [hasTypeMatch_of_tokens_eq q c htok hs] at hm
      exact Bool.noConfusion hm
    unfold isBusinessNameMatch
    have hmax : max (searchTokens q).length 1 = (searchTokens q).length :=
      max_eq_left (by omega)
    have hti : typeIncompat q c := ⟨hs, hf, hm⟩
    rw [if_neg h1, if_neg h2,
      if_neg (by omega : ¬ max (searchTokens q).length 1 = 1),
      if_pos hti]
  · with_unfolding_all decide

/-- Witness for C5 on an incompatible pizzeria/bakery pair. -/
theorem c5_type_incompatibility_rejects_witness :
    2 ≤ (searchTokens "sunshine pizzeria".toList).length ∧
    typeIncompat "sunshine pizzeria".toList "sunshine bakery".toList ∧
    isBusinessNameMatch "sunshine pizzeria".toList "sunshine bakery".toList = false := by
  refine ⟨by decide, by decide, ?_⟩
  exact c5_type_incompatibility_rejects.1 _ _ (by decide) (by decide)
